import Mathlib

/-!
Shallow embedding of the MCQ generator's validation-and-repair pipeline
(`core/validation.py`) and of the schema model (`models.py`).

Conventions of the embedding:
* JSON objects become structures whose fields are `Option`-typed: `none`
  models an absent key, `some v` a present key with value `v`.
* A JSON value that is expected to be an array is modelled by `RawField α`:
  `absent` (key missing), `val l` (a list), `invalidTruthy` (present,
  not a list, truthy in Python, e.g. a nonempty string), `invalidFalsy`
  (present, not a list, falsy in Python, e.g. `null` or `0`).
* Python exceptions that escape a function become `Except.error`;
  the per-item `try/except` blocks that drop an item become `Option`.
* `datetime.now().isoformat()` is passed in as an explicit `now : String`.
* Strings are compared and measured per character, matching Python `len`
  on the ASCII fragment; `Char.isAlphanum` models `str.isalnum` on ASCII.
-/

deriving instance DecidableEq for Except

/-- A raw MCQ option object (`{"option": ..., "is_correct": ...}`).
`is_correct` is read in the source only through `opt.get("is_correct", False)`
and truthiness, so an absent key is identified with `false`. -/
structure RawOption where
  option : Option String
  is_correct : Bool
  deriving DecidableEq

/-- A JSON field that the source expects to hold an array. -/
inductive RawField (α : Type) where
  | absent
  | invalidTruthy
  | invalidFalsy
  | val (l : List α)
  deriving DecidableEq

/-- Truthiness (`bool(x)`) of a `RawField` value, with an absent key read
through `dict.get(key)` (which yields falsy `None`). -/
def RawField.truthy {α : Type} : RawField α → Bool
  | .val l => !l.isEmpty
  | .invalidTruthy => true
  | _ => false

/-- Models `dict.get(key, [])` at call sites where the pipeline has already
ruled out non-list values. -/
def RawField.listD {α : Type} : RawField α → List α
  | .val l => l
  | _ => []

/-- Models Python `len(x)` on a field fetched with `dict.get(key, [])`:
a present non-list value raises `TypeError`. -/
def RawField.pyLen {α : Type} : RawField α → Except String Nat
  | .val l => .ok l.length
  | .absent => .ok 0
  | _ => .error "object has no len"

/-- A raw question object as handed to `_validate_questions`. -/
structure RawQuestion where
  question_id : Option Int
  question_text : Option String
  explanation : Option String
  options : RawField RawOption
  difficulty : Option String
  topic_area : Option String
  deriving DecidableEq

/-- A raw roadmap step as handed to `_validate_roadmap`. -/
structure RawStep where
  step_number : Option Int
  title : Option String
  description : Option String
  estimated_duration : Option String
  prerequisites : RawField String
  deriving DecidableEq

/-- A raw reference video as handed to `_validate_reference_videos`. -/
structure RawVideo where
  title : Option String
  url : Option String
  difficulty_level : Option String
  duration : Option String
  description : Option String
  deriving DecidableEq

/-- A metadata value: the values the source stores or merges into the
metadata dict (strings, counts, booleans, the difficulty distribution). -/
inductive JVal where
  | str (s : String)
  | num (n : Nat)
  | boolean (b : Bool)
  | dist (d : List (String × Nat))
  deriving DecidableEq

/-- A metadata dict, as an insertion-ordered association list. -/
abbrev MetaDict := List (String × JVal)

/-- The top-level MCQ payload dict handed to `validate_mcq_json`. -/
structure MCQData where
  username : Option String
  topic : Option String
  timestamp : Option String
  questions : RawField RawQuestion
  roadmap : RawField RawStep
  reference_videos : RawField RawVideo
  metadata : Option MetaDict
  deriving DecidableEq

/-- A `question_count` value: an integer or some non-integer JSON value. -/
inductive QCVal where
  | int (n : Int)
  | nonInt
  deriving DecidableEq

/-- A raw generation request dict handed to `validate_request_data`. -/
structure RawRequest where
  username : Option String
  topic : Option String
  difficulty : Option String
  question_count : Option QCVal
  include_roadmap : Option Bool
  include_videos : Option Bool
  deriving DecidableEq

/-- Whether an `Except` outcome is an error (a raised `MCQValidationError`). -/
def isErr {α : Type} : Except String α → Bool
  | .error _ => true
  | .ok _ => false

/-! ## Option repair (`_validate_question_options`) -/

/-- Number of options whose `is_correct` is truthy
(`len([opt for opt in options if opt.get("is_correct", False)])`). -/
def countCorrect (l : List RawOption) : Nat :=
  (l.filter (fun o => o.is_correct)).length

/-- The synthetic placeholder appended when padding, built from the current
list length: `{"option": f"Option N", "is_correct": False}` with `N = len+1`. -/
def synthOption (n : Nat) : RawOption :=
  { option := some ("Option " ++ toString (n + 1)), is_correct := false }

/-- `n` iterations of the `while` body, each appending one placeholder
built from the current length. -/
def padSteps : Nat → List RawOption → List RawOption
  | 0, l => l
  | n + 1, l => padSteps n (l ++ [synthOption l.length])

/-- The `while len(options) < 4` padding loop: it runs exactly
`4 - len(options)` iterations, each appending one placeholder. -/
def padTo4 (l : List RawOption) : List RawOption :=
  padSteps (4 - l.length) l

/-- The `if len(options) != 4` pad-or-trim block. -/
def fixOptionCount (l : List RawOption) : List RawOption :=
  if l.length = 4 then l
  else if l.length < 4 then padTo4 l
  else l.take 4

/-- The reset loop `for opt in options: opt["is_correct"] = False`. -/
def resetAll (l : List RawOption) : List RawOption :=
  l.map (fun o => { o with is_correct := false })

/-- A single in-place assignment `options[i]["is_correct"] = True`. -/
def setCorrectTrue : List RawOption → Nat → List RawOption
  | [], _ => []
  | o :: rest, 0 => { o with is_correct := true } :: rest
  | o :: rest, n + 1 => o :: setCorrectTrue rest n

/-- The generator predicate
`any(co.get("option") == opt.get("option") for co in correct_options)`.
In the source `correct_options` aliases already-reset dicts, but only their
`option` texts (unchanged by the reset) are read, so a pre-reset snapshot
is equivalent. -/
def matchesCorrectText (correct : List RawOption) (o : RawOption) : Bool :=
  correct.any (fun c => decide (c.option = o.option))

/-- `_validate_question_options` on a list value, after the isinstance check:
pad/trim to 4, then force exactly one truthy `is_correct`.  The two `error`
branches model `IndexError` on `options[0]` and `StopIteration` from `next`
(both unreachable for lists the pipeline produces, but kept faithful). -/
def normalizeCorrect (l : List RawOption) : Except String (List RawOption) :=
  let correct := l.filter (fun o => o.is_correct)
  if correct.length = 1 then .ok l
  else
    let reset := resetAll l
    if correct.length = 0 then
      match reset with
      | [] => .error "list index out of range"
      | o :: rest => .ok ({ o with is_correct := true } :: rest)
    else
      match reset.findIdx? (matchesCorrectText correct) with
      | some i => .ok (setCorrectTrue reset i)
      | none => .error "StopIteration"

/-- `_validate_question_options`, including the isinstance guard.  The
`absent` case mirrors the caller's `question.get("options", [])` default
(unreachable after the required-field check, which runs first). -/
def validate_question_options : RawField RawOption → Except String (List RawOption)
  | RawField.invalidTruthy => .error "options must be an array"
  | RawField.invalidFalsy => .error "options must be an array"
  | RawField.absent => normalizeCorrect (fixOptionCount [])
  | RawField.val l => normalizeCorrect (fixOptionCount l)

/-! ## Question repair (`_validate_questions`) -/

/-- The body of the per-question `try` block at 0-based index `i`:
`none` models a raised-and-caught exception (question dropped). -/
def repairQuestion (i : Nat) (q : RawQuestion) : Option RawQuestion :=
  let q := if q.question_id = none then { q with question_id := some (Int.ofNat (i + 1)) } else q
  if q.question_text = none ∨ q.explanation = none ∨ q.options = RawField.absent ∨
      q.difficulty = none then
    none
  else
    match validate_question_options q.options with
    | .error _ => none
    | .ok opts =>
      let q := { q with options := RawField.val opts }
      let q := if q.topic_area = none then { q with topic_area := some "General" } else q
      some q

/-- The `for i, question in enumerate(questions)` accumulation loop. -/
def repairQuestionsLoop : Nat → List RawQuestion → List RawQuestion
  | _, [] => []
  | i, q :: rest =>
    match repairQuestion i q with
    | some q2 => q2 :: repairQuestionsLoop (i + 1) rest
    | none => repairQuestionsLoop (i + 1) rest

/-- `_validate_questions`: run the loop, then fail if nothing survived. -/
def validate_questions (qs : List RawQuestion) : Except String (List RawQuestion) :=
  let vs := repairQuestionsLoop 0 qs
  if vs = [] then .error "No valid questions found" else .ok vs

/-! ## Roadmap repair (`_validate_roadmap`) -/

/-- Per-step repair at 0-based index `i`.  The source's required-field loop
over `title`/`description`/`estimated_duration` only logs: its `continue`
belongs to the inner field loop, so no step is dropped for missing fields. -/
def repairStep (i : Nat) (s : RawStep) : RawStep :=
  let s := if s.step_number = none then { s with step_number := some (Int.ofNat (i + 1)) } else s
  match s.prerequisites with
  | RawField.val _ => s
  | _ => { s with prerequisites := RawField.val [] }

/-- The `for i, step in enumerate(roadmap)` loop: every step is retained. -/
def repairRoadmapLoop : Nat → List RawStep → List RawStep
  | _, [] => []
  | i, s :: rest => repairStep i s :: repairRoadmapLoop (i + 1) rest

/-- `_validate_roadmap`: a non-list becomes `[]`, a list is repaired per step. -/
def validate_roadmap : RawField RawStep → List RawStep
  | RawField.val l => repairRoadmapLoop 0 l
  | _ => []

/-! ## Reference-video repair (`_validate_reference_videos`) -/

/-- Python `url.startswith(prefix)`, as a structural character-list check
(equivalent to the built-in starts-with test, which is not
kernel-reducible). -/
def pyStartsWith (s pre : String) : Bool :=
  List.isPrefixOf pre.toList s.toList

/-- Per-video repair.  The source's required-field loop over
`title`/`url`/`difficulty_level` only logs (its `continue` belongs to the
inner field loop); the video is dropped only when `video["url"]` raises
`KeyError` (url key absent) or when the url fails the scheme check. -/
def repairVideo (v : RawVideo) : Option RawVideo :=
  match v.url with
  | none => none
  | some u =>
    if !(pyStartsWith u "http://" || pyStartsWith u "https://") then none
    else
      let v := if v.duration = none then { v with duration := some "Unknown" } else v
      let v := if v.description = none then { v with description := some "Educational video content" }
        else v
      some v

/-- `_validate_reference_videos`: a non-list becomes `[]`, a list is filtered. -/
def validate_reference_videos : RawField RawVideo → List RawVideo
  | RawField.val l => l.filterMap repairVideo
  | _ => []

/-! ## Metadata synthesis (`_generate_metadata`) -/

/-- First-match association lookup (Python dict indexing on these dicts). -/
def metaLookup : MetaDict → String → Option JVal
  | [], _ => none
  | (k, v) :: rest, key => if k = key then some v else metaLookup rest key

/-- `difficulty_dist[difficulty] = difficulty_dist.get(difficulty, 0) + 1`
on an insertion-ordered dict. -/
def bumpDist : List (String × Nat) → String → List (String × Nat)
  | [], k => [(k, 1)]
  | (k2, c) :: rest, k => if k2 = k then (k2, c + 1) :: rest else (k2, c) :: bumpDist rest k

/-- The difficulty-distribution loop over the (already repaired) questions,
reading `question.get("difficulty", "unknown")`. -/
def difficultyDist (qs : List RawQuestion) : List (String × Nat) :=
  qs.foldl (fun acc q => bumpDist acc (q.difficulty.getD "unknown")) []

/-- Python `base.update(upd)` on insertion-ordered dicts: values of shared
keys are replaced in place, new keys are appended in `upd` order. -/
def dictUpdate (base upd : MetaDict) : MetaDict :=
  base.map (fun p => (p.1, (metaLookup upd p.1).getD p.2)) ++
    upd.filter (fun p => (metaLookup base p.1).isNone)

/-- `_generate_metadata`: compute the summary dict, then merge the payload's
existing metadata over it.  `len()` on a present non-list roadmap or
reference_videos value raises `TypeError` (an `Except.error` here). -/
def generate_metadata (now : String) (d : MCQData) : Except String MetaDict := do
  let questions := d.questions.listD
  let roadmapLen ← d.roadmap.pyLen
  let videoLen ← d.reference_videos.pyLen
  let computed : MetaDict :=
    [("total_questions", JVal.num questions.length),
     ("difficulty_distribution", JVal.dist (difficultyDist questions)),
     ("has_roadmap", JVal.boolean d.roadmap.truthy),
     ("has_reference_videos", JVal.boolean d.reference_videos.truthy),
     ("roadmap_steps", JVal.num roadmapLen),
     ("reference_video_count", JVal.num videoLen),
     ("validation_timestamp", JVal.str now)]
  return dictUpdate computed (d.metadata.getD [])

/-! ## Top-level repair (`validate_mcq_json`) -/

/-- `_validate_basic_structure`: require `username`, `topic`; synthesize a
missing `timestamp`; require `questions` to be present and a list. -/
def validate_basic_structure (now : String) (d : MCQData) : Except String MCQData :=
  if d.username = none then .error "Missing required field: username"
  else if d.topic = none then .error "Missing required field: topic"
  else
    let d2 := if d.timestamp = none then { d with timestamp := some now } else d
    match d2.questions with
    | RawField.absent => .error "Missing required field: questions"
    | RawField.invalidTruthy => .error "questions must be an array"
    | RawField.invalidFalsy => .error "questions must be an array"
    | RawField.val _ => .ok d2

/-- The `if mcq_data.get("roadmap"):` block: replace a truthy roadmap value
by its repair (a falsy one — absent, an empty list, or a falsy non-list —
is left in place untouched). -/
def applyRoadmapRepair (d : MCQData) : MCQData :=
  if d.roadmap.truthy then
    { d with roadmap := RawField.val (validate_roadmap d.roadmap) }
  else d

/-- The `if mcq_data.get("reference_videos"):` block. -/
def applyVideoRepair (d : MCQData) : MCQData :=
  if d.reference_videos.truthy then
    { d with reference_videos := RawField.val (validate_reference_videos d.reference_videos) }
  else d

/-- The `mcq_data["metadata"] = _generate_metadata(mcq_data)` assignment
(whose length computations can raise on falsy non-list collections). -/
def finalizeMetadata (now : String) (d : MCQData) : Except String MCQData := do
  let m ← generate_metadata now d
  return { d with metadata := some m }

/-- `validate_mcq_json` on an already-parsed dict input.  The final Pydantic
pass is value-preserving on this abstraction: when `MCQResponse(**d)`
validates, `.dict()` returns the same data (absent optional keys and `None`
values coincide here), and when it raises `ValidationError` the source
returns the manually repaired dict unchanged — so both branches yield the
repaired payload and the pass introduces no failure. -/
def validate_mcq_json (now : String) (d : MCQData) : Except String MCQData := do
  let d1 ← validate_basic_structure now d
  let qs ← validate_questions d1.questions.listD
  finalizeMetadata now (applyVideoRepair (applyRoadmapRepair { d1 with questions := RawField.val qs }))

/-! ## Request normalization (`validate_request_data`) -/

/-- `username.replace("_", "").replace("-", "")`. -/
def stripSeparators (u : String) : String :=
  String.mk (u.toList.filter (fun c => decide (c ≠ '_' ∧ c ≠ '-')))

/-- Python `str.isalnum` on the ASCII fragment: nonempty and every
character alphanumeric (in particular `"".isalnum()` is `False`). -/
def pyIsAlnum (s : String) : Bool :=
  decide (s ≠ "") && s.toList.all (fun c => c.isAlphanum)

/-- `validate_request_data`: required nonempty `username`/`topic`, username
character check, defaults, and the question-count clamp. -/
def validate_request_data (r : RawRequest) : Except String RawRequest :=
  match r.username with
  | none => .error "Missing or empty required field: username"
  | some u =>
    if u = "" then .error "Missing or empty required field: username"
    else
      match r.topic with
      | none => .error "Missing or empty required field: topic"
      | some t =>
        if t = "" then .error "Missing or empty required field: topic"
        else if !pyIsAlnum (stripSeparators u) then
          .error "Username must contain only alphanumeric characters hyphens and underscores"
        else
          let r1 := { r with difficulty := some (r.difficulty.getD "mixed"),
                             question_count := some (r.question_count.getD (QCVal.int 20)),
                             include_roadmap := some (r.include_roadmap.getD true),
                             include_videos := some (r.include_videos.getD true) }
          let r2 := match r1.question_count.getD (QCVal.int 20) with
            | QCVal.int n =>
              if n < 5 ∨ n > 50 then { r1 with question_count := some (QCVal.int 20) } else r1
            | QCVal.nonInt => { r1 with question_count := some (QCVal.int 20) }
          .ok r2

/-! ## The schema model (`models.py`), as a validity predicate -/

/-- Membership in the `DifficultyLevel` enum. -/
def isDifficultyLevel (s : String) : Bool :=
  decide (s = "basic" ∨ s = "intermediate" ∨ s = "advanced" ∨ s = "mixed")

/-- A required string field with Pydantic `min_length`/`max_length`. -/
def reqStrLen (o : Option String) (lo hi : Nat) : Bool :=
  match o with
  | some s => decide (lo ≤ s.length ∧ s.length ≤ hi)
  | none => false

/-- `MCQOption` field constraints. -/
def pydanticValidOption (o : RawOption) : Bool :=
  reqStrLen o.option 1 500

/-- `MCQQuestion` field constraints, including the exactly-one-correct
validator and `min_items=4, max_items=4` on options. -/
def pydanticValidQuestion (q : RawQuestion) : Bool :=
  (match q.question_id with | some n => decide (1 ≤ n) | none => false) &&
  reqStrLen q.question_text 10 1000 &&
  reqStrLen q.explanation 10 2000 &&
  (match q.options with
   | RawField.val l => l.all pydanticValidOption && decide (l.length = 4) &&
       decide (countCorrect l = 1)
   | _ => false) &&
  (match q.difficulty with | some s => isDifficultyLevel s | none => false)

/-- `RoadmapStep` field constraints (`prerequisites` has a default, so an
absent key is accepted). -/
def pydanticValidStep (s : RawStep) : Bool :=
  (match s.step_number with | some n => decide (1 ≤ n) | none => false) &&
  reqStrLen s.title 1 200 &&
  reqStrLen s.description 1 1000 &&
  s.estimated_duration.isSome &&
  (match s.prerequisites with
   | RawField.val _ => true
   | RawField.absent => true
   | _ => false)

/-- `ReferenceVideo` field constraints, including the url validator. -/
def pydanticValidVideo (v : RawVideo) : Bool :=
  reqStrLen v.title 1 200 &&
  (match v.url with
   | some u => pyStartsWith u "http://" || pyStartsWith u "https://"
   | none => false) &&
  (match v.difficulty_level with | some s => isDifficultyLevel s | none => false) &&
  (match v.description with | some s => decide (s.length ≤ 500) | none => true)

/-! ## Derived notions used to state the claims -/

/-- Position of the first option whose `is_correct` is truthy. -/
def firstCorrectIdx (l : List RawOption) : Nat :=
  l.findIdx (fun o => o.is_correct)

/-- Position of the first option whose text equals the text of some
originally-correct option: the index the source's `next(...)` search picks. -/
def textMatchIdx (l : List RawOption) : Nat :=
  l.findIdx (matchesCorrectText (l.filter (fun o => o.is_correct)))

/-- Lookup in a difficulty-distribution dict, 0 when the key is absent. -/
def distLookup : List (String × Nat) → String → Nat
  | [], _ => 0
  | (k, c) :: rest, s => if k = s then c else distLookup rest s

/-- Number of questions whose difficulty string (read with the source's
`question.get("difficulty", "unknown")`) equals `s`. -/
def countDiff (qs : List RawQuestion) (s : String) : Nat :=
  (qs.filter (fun q => decide (q.difficulty.getD "unknown" = s))).length

/-- The clamp applied to the (defaulted) `question_count` value: keep an
integer in [5, 50], replace anything else with 20. -/
def normQC : QCVal → QCVal
  | QCVal.int n => if n < 5 ∨ n > 50 then QCVal.int 20 else QCVal.int n
  | QCVal.nonInt => QCVal.int 20

/-- The claim-level character condition on usernames: only letters, digits,
hyphen and underscore. -/
def usernameAllowedChars (s : String) : Bool :=
  s.toList.all (fun c => c.isAlphanum || c = '-' || c = '_')

/-- A question carrying the optional field that repair would otherwise
materialize. -/
def materializedQuestion (q : RawQuestion) : Bool :=
  q.topic_area.isSome

/-- A roadmap step carrying the optional fields that repair would otherwise
materialize. -/
def materializedStep (s : RawStep) : Bool :=
  match s.prerequisites with
  | RawField.val _ => true
  | _ => false

/-- A video carrying the optional fields that repair would otherwise
materialize. -/
def materializedVideo (v : RawVideo) : Bool :=
  v.duration.isSome && v.description.isSome

/-- `MCQResponse` validity: the final Pydantic check run by
`validate_mcq_json` (roadmap and reference_videos are `Optional` lists;
the pipeline never reaches this check with a non-list value in them). -/
def pydanticValid (d : MCQData) : Bool :=
  d.username.isSome && d.topic.isSome && d.timestamp.isSome &&
  (match d.questions with
   | RawField.val qs => qs.all pydanticValidQuestion
   | _ => false) &&
  (match d.roadmap with
   | RawField.val l => l.all pydanticValidStep
   | RawField.absent => true
   | _ => false) &&
  (match d.reference_videos with
   | RawField.val l => l.all pydanticValidVideo
   | RawField.absent => true
   | _ => false)

/-- A response that is schema-conformant (`pydanticValid`), has at least one
question, and already carries the optional fields that repair materializes
(`topic_area`, `prerequisites`, `duration`, `description`). -/
def validMaterialized (d : MCQData) : Bool :=
  pydanticValid d &&
  (match d.questions with
   | RawField.val qs => !qs.isEmpty && qs.all materializedQuestion
   | _ => false) &&
  (match d.roadmap with
   | RawField.val l => l.all materializedStep
   | RawField.absent => true
   | _ => false) &&
  (match d.reference_videos with
   | RawField.val l => l.all materializedVideo
   | RawField.absent => true
   | _ => false)

/-! ## Concrete payloads used in witnesses and counterexamples -/

/-- The raw question of the spec's end-to-end scenario: two options, both
marked correct. -/
def qTwoCorrect : RawQuestion :=
  { question_id := none, question_text := some "Q?", explanation := some "E",
    options := RawField.val [⟨some "A", true⟩, ⟨some "B", true⟩],
    difficulty := some "basic", topic_area := none }

/-- The repaired form of `qTwoCorrect`. -/
def qTwoCorrectRepaired : RawQuestion :=
  { question_id := some 1, question_text := some "Q?", explanation := some "E",
    options := RawField.val [⟨some "A", true⟩, ⟨some "B", false⟩,
      ⟨some "Option 3", false⟩, ⟨some "Option 4", false⟩],
    difficulty := some "basic", topic_area := some "General" }

/-- Four options with a duplicated text: position 0 repeats the text of the
first originally-correct option (position 1). -/
def dupTextOptions : List RawOption :=
  [⟨some "A", false⟩, ⟨some "A", true⟩, ⟨some "B", true⟩, ⟨some "C", false⟩]

/-- A reference video carrying only a well-formed url: `title` and
`difficulty_level` are both absent. -/
def urlOnlyVideo : RawVideo :=
  { title := none, url := some "https://x", difficulty_level := none,
    duration := none, description := none }

/-- A raw question missing `explanation`. -/
def qNoExplanation : RawQuestion :=
  { question_id := none, question_text := some "Q?", explanation := none,
    options := RawField.val [⟨some "A", true⟩], difficulty := some "basic",
    topic_area := none }

/-- A fully schema-valid question that lacks the optional `topic_area`. -/
def qValidNoTopicArea : RawQuestion :=
  { question_id := some 1, question_text := some "What is two plus two?",
    explanation := some "Two plus two equals four.",
    options := RawField.val [⟨some "Four", true⟩, ⟨some "Three", false⟩,
      ⟨some "Five", false⟩, ⟨some "Six", false⟩],
    difficulty := some "basic", topic_area := none }

/-- `qValidNoTopicArea` with `topic_area` materialized. -/
def qValidWithTopicArea : RawQuestion :=
  { qValidNoTopicArea with topic_area := some "General" }

/-- A schema-valid response whose only question lacks `topic_area`. -/
def dValidNoTopicArea : MCQData :=
  { username := some "alice", topic := some "arithmetic", timestamp := some "2024-01-01T00:00:00",
    questions := RawField.val [qValidNoTopicArea], roadmap := RawField.absent,
    reference_videos := RawField.absent, metadata := none }

/-- A schema-valid, fully materialized roadmap step. -/
def stepBasics : RawStep :=
  { step_number := some 1, title := some "Basics",
    description := some "Learn the basics.", estimated_duration := some "1 week",
    prerequisites := RawField.val [] }

/-- A schema-valid, fully materialized reference video. -/
def videoIntro : RawVideo :=
  { title := some "Intro", url := some "https://example.org/v",
    difficulty_level := some "basic", duration := some "10:00",
    description := some "An introduction." }

/-- A schema-valid, fully materialized response. -/
def dValidMaterialized : MCQData :=
  { username := some "alice", topic := some "arithmetic", timestamp := some "2024-01-01T00:00:00",
    questions := RawField.val [qValidWithTopicArea],
    roadmap := RawField.val [stepBasics],
    reference_videos := RawField.val [videoIntro],
    metadata := some [("generation_time_seconds", JVal.str "2.45")] }

/-- A payload that passes every check the claims enumerate, but carries a
present, falsy, non-sequence `roadmap` value (e.g. JSON `null`). -/
def dRoadmapNull : MCQData :=
  { username := some "a", topic := some "b", timestamp := some "T",
    questions := RawField.val [qTwoCorrect], roadmap := RawField.invalidFalsy,
    reference_videos := RawField.absent, metadata := none }

/-- A well-formed payload whose question text is shorter than the schema
minimum of 10 characters (the spec's end-to-end raw output). -/
def dShortQuestionText : MCQData :=
  { username := some "a", topic := some "b", timestamp := none,
    questions := RawField.val [qTwoCorrect], roadmap := RawField.absent,
    reference_videos := RawField.absent, metadata := none }

/-- A request whose username consists solely of allowed separator
characters. -/
def rUnderscoreOnly : RawRequest :=
  { username := some "_", topic := some "math", difficulty := none,
    question_count := none, include_roadmap := none, include_videos := none }

/-- A request with `question_count = 1000`. -/
def rBigCount : RawRequest :=
  { username := some "ab", topic := some "math", difficulty := none,
    question_count := some (QCVal.int 1000), include_roadmap := none,
    include_videos := none }

/-! # Theorems

Helper lemmas about the embedded pipeline, followed by one theorem per
claim (with a counterexample theorem and a witness where required). -/

theorem padSteps_append_shape (n : Nat) : ∀ l : List RawOption,
    padSteps n l = l ++ (List.range' l.length n).map synthOption := by
  induction n with
  | zero => intro l; simp [padSteps]
  | succ n ih =>
    intro l
    rw [padSteps, ih, List.range'_succ]
    simp [List.append_assoc]

theorem padTo4_shape (l : List RawOption) :
    padTo4 l = l ++ (List.range' l.length (4 - l.length)).map synthOption := by
  rw [padTo4, padSteps_append_shape]

theorem padTo4_length (l : List RawOption) (h : l.length ≤ 4) :
    (padTo4 l).length = 4 := by
  rw [padTo4_shape]
  simp
  omega

theorem fixOptionCount_length (l : List RawOption) : (fixOptionCount l).length = 4 := by
  rw [fixOptionCount]
  by_cases h4 : l.length = 4
  · simp [h4]
  · by_cases hlt : l.length < 4
    · simp [h4, hlt, padTo4_length l (by omega)]
    · simp [h4, hlt]
      omega

theorem setCorrectTrue_length : ∀ (l : List RawOption) (i : Nat),
    (setCorrectTrue l i).length = l.length := by
  intro l
  induction l with
  | nil => intro i; cases i <;> rfl
  | cons o rest ih =>
    intro i
    cases i with
    | zero => rfl
    | succ n => simp [setCorrectTrue, ih]

theorem countCorrect_nil : countCorrect [] = 0 := rfl

theorem countCorrect_cons (o : RawOption) (rest : List RawOption) :
    countCorrect (o :: rest) =
      (if o.is_correct then 1 else 0) + countCorrect rest := by
  simp [countCorrect, List.filter_cons]
  by_cases h : o.is_correct
  · simp [h]
    omega
  · simp [h]

theorem countCorrect_resetAll (l : List RawOption) : countCorrect (resetAll l) = 0 := by
  induction l with
  | nil => rfl
  | cons o rest ih => simpa [resetAll, countCorrect_cons] using ih

theorem countCorrect_setCorrectTrue : ∀ (l : List RawOption) (i : Nat),
    countCorrect l = 0 → i < l.length → countCorrect (setCorrectTrue l i) = 1 := by
  intro l
  induction l with
  | nil => intro i _ hi; simp at hi
  | cons o rest ih =>
    intro i h0 hi
    rw [countCorrect_cons] at h0
    cases i with
    | zero =>
      simp [setCorrectTrue, countCorrect_cons]
      omega
    | succ n =>
      simp only [setCorrectTrue, countCorrect_cons]
      rw [ih n (by omega) (by simpa using hi)]
      omega

theorem normalizeCorrect_count_one (l : List RawOption) (h : countCorrect l = 1) :
    normalizeCorrect l = .ok l := by
  rw [normalizeCorrect]
  simp only [countCorrect] at h
  simp [h]

theorem normalizeCorrect_count_zero (l : List RawOption) (h : countCorrect l = 0)
    (hne : l ≠ []) : normalizeCorrect l = .ok (setCorrectTrue (resetAll l) 0) := by
  rw [normalizeCorrect]
  simp only [countCorrect] at h
  simp only [h]
  cases l with
  | nil => exact absurd rfl hne
  | cons o rest => simp [resetAll, setCorrectTrue]

theorem matchesCorrectText_resetAll (c : List RawOption) (l : List RawOption) :
    (resetAll l).findIdx? (matchesCorrectText c) = l.findIdx? (matchesCorrectText c) := by
  rw [resetAll, List.findIdx?_map]
  rfl

theorem findIdx?_eq_some_findIdx {α : Type} (p : α → Bool) (l : List α)
    (h : ∃ x ∈ l, p x) : l.findIdx? p = some (l.findIdx p) := by
  rw [List.findIdx?_eq_some_iff_findIdx_eq]
  exact ⟨List.findIdx_lt_length_of_exists h, rfl⟩

theorem mem_correct_matches (l : List RawOption) (o : RawOption)
    (ho : o ∈ l) (hc : o.is_correct = true) :
    matchesCorrectText (l.filter (fun x => x.is_correct)) o = true := by
  rw [matchesCorrectText, List.any_eq_true]
  exact ⟨o, List.mem_filter.mpr ⟨ho, hc⟩, by simp⟩

theorem exists_correct_of_count_pos (l : List RawOption) (h : 0 < countCorrect l) :
    ∃ o ∈ l, o.is_correct = true := by
  rw [countCorrect] at h
  rcases List.exists_mem_of_length_pos h with ⟨o, ho⟩
  exact ⟨o, (List.mem_filter.mp ho).1, (List.mem_filter.mp ho).2⟩

theorem normalizeCorrect_count_ge2 (l : List RawOption) (h : 2 ≤ countCorrect l) :
    normalizeCorrect l = .ok (setCorrectTrue (resetAll l) (textMatchIdx l)) := by
  rw [normalizeCorrect]
  simp only [countCorrect] at h
  have h1 : ¬ (l.filter (fun o => o.is_correct)).length = 1 := by omega
  have h0 : ¬ (l.filter (fun o => o.is_correct)).length = 0 := by omega
  simp only [h1, if_false, h0]
  have hex : ∃ x ∈ l, matchesCorrectText (l.filter (fun o => o.is_correct)) x = true := by
    obtain ⟨o, ho, hc⟩ := exists_correct_of_count_pos l (by rw [countCorrect]; omega)
    exact ⟨o, ho, mem_correct_matches l o ho hc⟩
  rw [matchesCorrectText_resetAll, findIdx?_eq_some_findIdx _ _ hex]
  rfl

theorem normalizeCorrect_ok_shape (l : List RawOption) (out : List RawOption)
    (hlen : l.length = 4) (h : normalizeCorrect l = .ok out) :
    out.length = 4 ∧ countCorrect out = 1 := by
  rcases Nat.lt_or_ge (countCorrect l) 1 with hc | hc
  · have hc0 : countCorrect l = 0 := by omega
    rw [normalizeCorrect_count_zero l hc0 (by intro he; rw [he] at hlen; simp at hlen)] at h
    cases h
    refine ⟨?_, ?_⟩
    · rw [setCorrectTrue_length, resetAll, List.length_map, hlen]
    · exact countCorrect_setCorrectTrue _ _ (countCorrect_resetAll l)
        (by rw [resetAll, List.length_map, hlen]; omega)
  · rcases Nat.lt_or_ge (countCorrect l) 2 with hc1 | hc2
    · have : countCorrect l = 1 := by omega
      rw [normalizeCorrect_count_one l this] at h
      cases h
      exact ⟨hlen, this⟩
    · rw [normalizeCorrect_count_ge2 l hc2] at h
      cases h
      have hresetlen : (resetAll l).length = 4 := by rw [resetAll, List.length_map, hlen]
      have hidx : textMatchIdx l < l.length := by
        rw [textMatchIdx]
        apply List.findIdx_lt_length_of_exists
        obtain ⟨o, ho, hc⟩ := exists_correct_of_count_pos l (by omega)
        exact ⟨o, ho, mem_correct_matches l o ho hc⟩
      refine ⟨?_, ?_⟩
      · rw [setCorrectTrue_length, hresetlen]
      · exact countCorrect_setCorrectTrue _ _ (countCorrect_resetAll l) (by omega)

theorem validate_question_options_ok_shape (f : RawField RawOption)
    (out : List RawOption) (h : validate_question_options f = .ok out) :
    out.length = 4 ∧ countCorrect out = 1 := by
  cases f with
  | absent =>
    simp only [validate_question_options] at h
    exact normalizeCorrect_ok_shape _ _ (fixOptionCount_length _) h
  | invalidTruthy => cases h
  | invalidFalsy => cases h
  | val l =>
    simp only [validate_question_options] at h
    exact normalizeCorrect_ok_shape _ _ (fixOptionCount_length _) h

theorem repairQuestion_some_options (i : Nat) (q q2 : RawQuestion)
    (h : repairQuestion i q = some q2) :
    ∃ opts, q2.options = RawField.val opts ∧ opts.length = 4 ∧ countCorrect opts = 1 := by
  rw [repairQuestion] at h
  set q1 := if q.question_id = none then { q with question_id := some (Int.ofNat (i + 1)) }
    else q with hq1
  by_cases hreq : q1.question_text = none ∨ q1.explanation = none ∨
      q1.options = RawField.absent ∨ q1.difficulty = none
  · rw [if_pos hreq] at h
    cases h
  · rw [if_neg hreq] at h
    cases hvo : validate_question_options q1.options with
    | error e => rw [hvo] at h; cases h
    | ok opts =>
      rw [hvo] at h
      obtain ⟨hlen, hcnt⟩ := validate_question_options_ok_shape _ _ hvo
      refine ⟨opts, ?_, hlen, hcnt⟩
      injection h with h
      subst h
      by_cases hta : ({ q1 with options := RawField.val opts } : RawQuestion).topic_area = none
      · rw [if_pos hta]
      · rw [if_neg hta]

/-- C1: every raw question that survives repair ends with exactly 4 options
of which exactly one is marked correct, whatever the raw counts were; short
option lists are padded with synthetic `Option N` placeholders (one per
missing slot, numbered by position), long ones are truncated to the first 4. -/
theorem C1_repaired_options_invariant :
    (∀ (i : Nat) (q q2 : RawQuestion), repairQuestion i q = some q2 →
      ∃ opts, q2.options = RawField.val opts ∧ opts.length = 4 ∧ countCorrect opts = 1) ∧
    (∀ l : List RawOption, l.length < 4 →
      fixOptionCount l = l ++ (List.range' l.length (4 - l.length)).map synthOption) ∧
    (∀ l : List RawOption, 4 < l.length → fixOptionCount l = l.take 4) := by
  refine ⟨repairQuestion_some_options, ?_, ?_⟩
  · intro l h
    rw [fixOptionCount, if_neg (by omega), if_pos h, padTo4_shape]
  · intro l h
    rw [fixOptionCount, if_neg (by omega), if_neg (by omega)]

/-- Witness for C1 at concrete inputs: the spec's two-option end-to-end
question survives with 4 options and one correct; a 2-element list is padded
with `Option 3`, `Option 4`; a 5-element list is truncated. -/
theorem C1_repaired_options_invariant_witness :
    (∃ opts, qTwoCorrectRepaired.options = RawField.val opts ∧
      opts.length = 4 ∧ countCorrect opts = 1) ∧
    fixOptionCount [⟨some "A", true⟩, ⟨some "B", false⟩] =
      [⟨some "A", true⟩, ⟨some "B", false⟩] ++
        (List.range' 2 2).map synthOption ∧
    fixOptionCount [⟨some "A", true⟩, ⟨some "B", false⟩, ⟨some "C", false⟩,
        ⟨some "D", false⟩, ⟨some "E", false⟩] =
      List.take 4 [⟨some "A", true⟩, ⟨some "B", false⟩, ⟨some "C", false⟩,
        ⟨some "D", false⟩, ⟨some "E", false⟩] := by
  refine ⟨C1_repaired_options_invariant.1 0 qTwoCorrect qTwoCorrectRepaired (by decide),
    C1_repaired_options_invariant.2.1 _ (by decide),
    C1_repaired_options_invariant.2.2 _ (by decide)⟩

/-- C3 counterexample: on four options whose texts repeat (`"A"` at
positions 0 and 1), with the originally-correct options at positions 1 and
2, the source does not keep the first correct option (position 1) true: its
text-based search marks position 0 — an option that was never correct —
and position 1 ends up false. -/
theorem C3_counterexample :
    2 ≤ countCorrect dupTextOptions ∧
    firstCorrectIdx dupTextOptions = 1 ∧
    validate_question_options (RawField.val dupTextOptions) =
      Except.ok [⟨some "A", true⟩, ⟨some "A", false⟩, ⟨some "B", false⟩,
        ⟨some "C", false⟩] := by
  exact ⟨by decide, by decide, by decide⟩

theorem textMatchIdx_eq_firstCorrectIdx (p : List RawOption)
    (h1 : 1 ≤ countCorrect p) (hnd : (p.map (fun o => o.option)).Nodup) :
    textMatchIdx p = firstCorrectIdx p := by
  rw [textMatchIdx, firstCorrectIdx]
  have hex : ∃ o ∈ p, (fun o : RawOption => o.is_correct) o = true :=
    exists_correct_of_count_pos p (by omega)
  have hjlt : List.findIdx (fun o => o.is_correct) p < p.length :=
    List.findIdx_lt_length_of_exists hex
  have hpj : p[List.findIdx (fun o => o.is_correct) p].is_correct = true :=
    @List.findIdx_getElem _ (fun o => o.is_correct) p hjlt
  have hpred : matchesCorrectText (p.filter (fun o => o.is_correct))
      p[List.findIdx (fun o => o.is_correct) p] = true :=
    mem_correct_matches p _ (List.getElem_mem hjlt) hpj
  have hBk : ∀ k, k < List.findIdx (fun o => o.is_correct) p → ∀ hklen : k < p.length,
      matchesCorrectText (p.filter (fun o => o.is_correct)) p[k] = false := by
    intro k hk hklen
    by_contra hcon
    have hktrue : matchesCorrectText (p.filter (fun o => o.is_correct)) p[k] = true := by
      revert hcon
      cases matchesCorrectText (p.filter (fun o => o.is_correct)) p[k] <;> simp
    rw [matchesCorrectText, List.any_eq_true] at hktrue
    obtain ⟨c, hcmem, hceq⟩ := hktrue
    rw [List.mem_filter] at hcmem
    obtain ⟨hcp, hcc⟩ := hcmem
    obtain ⟨m, hm, hmc⟩ := List.mem_iff_getElem.mp hcp
    have hco : c.option = p[k].option := of_decide_eq_true hceq
    have hmmap : m < (p.map (fun o => o.option)).length := by
      rw [List.length_map]
      omega
    have hkmap : k < (p.map (fun o => o.option)).length := by
      rw [List.length_map]
      omega
    have hmk : m = k := by
      have hmapeq : (p.map (fun o => o.option))[m] = (p.map (fun o => o.option))[k] := by
        rw [List.getElem_map, List.getElem_map, hmc, hco]
      exact (List.Nodup.getElem_inj_iff hnd).mp hmapeq
    subst hmk
    have hcorr : p[m].is_correct = true := by rw [hmc]; exact hcc
    have hfalse : (fun o : RawOption => o.is_correct) p[m] = false :=
      List.not_of_lt_findIdx hk
    simp only [hcorr] at hfalse
    cases hfalse
  apply Nat.le_antisymm
  · by_contra hgt
    have hlt : List.findIdx (fun o => o.is_correct) p <
        List.findIdx (matchesCorrectText (p.filter (fun o => o.is_correct))) p := by
      omega
    have := List.not_of_lt_findIdx hlt
    rw [hpred] at this
    cases this
  · by_contra hgt
    have hlt : List.findIdx (matchesCorrectText (p.filter (fun o => o.is_correct))) p <
        List.findIdx (fun o => o.is_correct) p := by
      omega
    have hlen : List.findIdx (matchesCorrectText (p.filter (fun o => o.is_correct))) p <
        p.length := by
      omega
    have htrue := @List.findIdx_getElem _
      (matchesCorrectText (p.filter (fun o => o.is_correct))) p hlen
    have hfalse := hBk _ hlt hlen
    rw [hfalse] at htrue
    cases htrue

/-- C3 (amended): after padding/truncation to 4, if zero options are marked
correct the first option is forced true; if two or more are marked correct,
the source keeps true exactly the first option whose text equals the text of
some originally-correct option (all flags having first been reset), which
coincides with the first originally-correct position whenever the option
texts are pairwise distinct — but not in general; the normalization is a
pure function of its input list, hence deterministic. -/
theorem C3_correct_flag_normalization (l : List RawOption) :
    (countCorrect (fixOptionCount l) = 0 →
      validate_question_options (RawField.val l) =
        Except.ok (setCorrectTrue (resetAll (fixOptionCount l)) 0)) ∧
    (countCorrect (fixOptionCount l) = 1 →
      validate_question_options (RawField.val l) = Except.ok (fixOptionCount l)) ∧
    (2 ≤ countCorrect (fixOptionCount l) →
      validate_question_options (RawField.val l) =
        Except.ok (setCorrectTrue (resetAll (fixOptionCount l))
          (textMatchIdx (fixOptionCount l))) ∧
      countCorrect (setCorrectTrue (resetAll (fixOptionCount l))
        (textMatchIdx (fixOptionCount l))) = 1 ∧
      (((fixOptionCount l).map (fun o => o.option)).Nodup →
        textMatchIdx (fixOptionCount l) = firstCorrectIdx (fixOptionCount l))) := by
  have hlen : (fixOptionCount l).length = 4 := fixOptionCount_length l
  refine ⟨?_, ?_, ?_⟩
  · intro h0
    show normalizeCorrect (fixOptionCount l) = _
    rw [normalizeCorrect_count_zero _ h0 (by intro he; rw [he] at hlen; cases hlen)]
  · intro h1
    show normalizeCorrect (fixOptionCount l) = _
    exact normalizeCorrect_count_one _ h1
  · intro h2
    have hidx : textMatchIdx (fixOptionCount l) < (fixOptionCount l).length := by
      rw [textMatchIdx]
      apply List.findIdx_lt_length_of_exists
      obtain ⟨o, ho, hc⟩ := exists_correct_of_count_pos (fixOptionCount l) (by omega)
      exact ⟨o, ho, mem_correct_matches _ o ho hc⟩
    refine ⟨?_, ?_, ?_⟩
    · show normalizeCorrect (fixOptionCount l) = _
      exact normalizeCorrect_count_ge2 _ h2
    · exact countCorrect_setCorrectTrue _ _ (countCorrect_resetAll _)
        (by rw [resetAll, List.length_map]; omega)
    · exact textMatchIdx_eq_firstCorrectIdx _ (by omega)

/-- Witness for C3 (amended) at concrete inputs: on `dupTextOptions`
(duplicate texts, two correct) the kept index is 0; on a distinct-text list
with two correct options at positions 1 and 3 the kept index equals the
first correct position 1. -/
theorem C3_correct_flag_normalization_witness :
    (validate_question_options (RawField.val dupTextOptions) =
      Except.ok (setCorrectTrue (resetAll (fixOptionCount dupTextOptions))
        (textMatchIdx (fixOptionCount dupTextOptions))) ∧
     textMatchIdx (fixOptionCount dupTextOptions) = 0) ∧
    (textMatchIdx (fixOptionCount [⟨some "A", false⟩, ⟨some "B", true⟩,
        ⟨some "C", false⟩, ⟨some "D", true⟩]) =
      firstCorrectIdx (fixOptionCount [⟨some "A", false⟩, ⟨some "B", true⟩,
        ⟨some "C", false⟩, ⟨some "D", true⟩])) ∧
    (validate_question_options (RawField.val ([] : List RawOption)) =
      Except.ok (setCorrectTrue (resetAll (fixOptionCount [])) 0)) := by
  refine ⟨⟨((C3_correct_flag_normalization dupTextOptions).2.2 (by decide)).1, by decide⟩,
    ((C3_correct_flag_normalization _).2.2 (by decide)).2.2 (by decide),
    (C3_correct_flag_normalization []).1 (by decide)⟩

/-- C2 fails on the code: a reference video with a well-formed url but with
`title` and `difficulty_level` both absent is retained (with `duration` and
`description` defaulted), not dropped — the required-field loop's `continue`
only advances to the next field name.  (A video with all fields and an
accepted url is retained, and an `ftp://` url is dropped, as the claim
says; the missing-required-field part is what the code violates.) -/
theorem C2_video_missing_fields_retained :
    validate_reference_videos (RawField.val [urlOnlyVideo]) =
      [{ urlOnlyVideo with duration := some "Unknown", description := some "Educational video content" }] ∧
    validate_reference_videos (RawField.val
      [{ videoIntro with url := some "ftp://x" }]) = [] ∧
    validate_reference_videos (RawField.val [videoIntro]) = [videoIntro] := by
  exact ⟨by decide, by decide, by decide⟩

theorem repairRoadmapLoop_length : ∀ (l : List RawStep) (i : Nat),
    (repairRoadmapLoop i l).length = l.length := by
  intro l
  induction l with
  | nil => intro i; rfl
  | cons s rest ih => intro i; simp [repairRoadmapLoop, ih]

theorem repairRoadmapLoop_getElem? : ∀ (l : List RawStep) (i k : Nat),
    (repairRoadmapLoop i l)[k]? = (l[k]?).map (fun s => repairStep (i + k) s) := by
  intro l
  induction l with
  | nil => intro i k; rfl
  | cons s rest ih =>
    intro i k
    cases k with
    | zero => simp [repairRoadmapLoop]
    | succ k =>
      simp only [repairRoadmapLoop, List.getElem?_cons_succ, ih (i + 1) k]
      have : i + 1 + k = i + (k + 1) := by omega
      rw [this]

theorem repairStep_fields (k : Nat) (s : RawStep) :
    repairStep k s =
      { s with
        step_number := if s.step_number = none then some (Int.ofNat (k + 1))
          else s.step_number,
        prerequisites := match s.prerequisites with
          | RawField.val l => RawField.val l
          | _ => RawField.val [] } := by
  rw [repairStep]
  by_cases hid : s.step_number = none
  · rw [if_pos hid, if_pos hid]
    cases hp : s.prerequisites <;> simp [hp, hid]
  · rw [if_neg hid, if_neg hid]
    cases hp : s.prerequisites with
    | val l =>
      simp only [hp]
      rw [← hp]
    | absent => simp [hp]
    | invalidTruthy => simp [hp]
    | invalidFalsy => simp [hp]

/-- C9: in a present-and-truthy roadmap, every step is retained (the output
has one step per input step, even when `title`, `description` or
`estimated_duration` is missing — only questions get dropped), with
`step_number` assigned as the 1-based position when absent and
`prerequisites` replaced by the empty sequence when absent or not a
sequence; all other fields pass through unchanged. -/
theorem C9_roadmap_steps_retained (steps : List RawStep) :
    (validate_roadmap (RawField.val steps)).length = steps.length ∧
    ∀ k, (validate_roadmap (RawField.val steps))[k]? = (steps[k]?).map (fun s : RawStep =>
      { s with
        step_number := if s.step_number = none then some (Int.ofNat (k + 1))
          else s.step_number,
        prerequisites := match s.prerequisites with
          | RawField.val l => RawField.val l
          | _ => RawField.val [] }) := by
  constructor
  · exact repairRoadmapLoop_length steps 0
  · intro k
    show (repairRoadmapLoop 0 steps)[k]? = _
    rw [repairRoadmapLoop_getElem?]
    have h0 : 0 + k = k := by omega
    rw [h0]
    cases steps[k]? with
    | none => rfl
    | some s => simp [repairStep_fields]

/-- C4: a question missing any of `question_text`, `explanation`, `options`
or `difficulty` is dropped while the loop continues with the remaining
questions, and `_validate_questions` fails (raising the typed validation
error) exactly when zero questions survive the per-question repair. -/
theorem C4_question_drop_policy :
    (∀ (i : Nat) (q : RawQuestion) (rest : List RawQuestion),
      (q.question_text = none ∨ q.explanation = none ∨
        q.options = RawField.absent ∨ q.difficulty = none) →
      repairQuestion i q = none ∧
      repairQuestionsLoop i (q :: rest) = repairQuestionsLoop (i + 1) rest) ∧
    (∀ qs : List RawQuestion,
      isErr (validate_questions qs) = true ↔ repairQuestionsLoop 0 qs = []) := by
  constructor
  · intro i q rest hmiss
    have hnone : repairQuestion i q = none := by
      rw [repairQuestion]
      by_cases hid : q.question_id = none
      · rw [if_pos hid, if_pos (by simpa using hmiss)]
      · rw [if_neg hid, if_pos (by simpa using hmiss)]
    exact ⟨hnone, by rw [repairQuestionsLoop, hnone]⟩
  · intro qs
    rw [validate_questions]
    by_cases h : repairQuestionsLoop 0 qs = []
    · simp [h, isErr]
    · simp [h, isErr]

/-- Witness for C4: a question missing `explanation` is dropped and the
batch continues (the following good question still survives); with only the
bad question, repair errors, matching zero survivors. -/
theorem C4_question_drop_policy_witness :
    (repairQuestion 0 qNoExplanation = none ∧
      repairQuestionsLoop 0 [qNoExplanation, qTwoCorrect] =
        repairQuestionsLoop 1 [qTwoCorrect]) ∧
    (isErr (validate_questions [qNoExplanation]) = true ↔
      repairQuestionsLoop 0 [qNoExplanation] = []) := by
  exact ⟨C4_question_drop_policy.1 0 qNoExplanation [qTwoCorrect] (by decide),
    C4_question_drop_policy.2 [qNoExplanation]⟩

theorem metaLookup_append (l1 l2 : MetaDict) (k : String) :
    metaLookup (l1 ++ l2) k =
      match metaLookup l1 k with
      | some v => some v
      | none => metaLookup l2 k := by
  induction l1 with
  | nil => rfl
  | cons p rest ih =>
    obtain ⟨k2, v2⟩ := p
    by_cases hk : k2 = k
    · simp [metaLookup, hk]
    · simp [metaLookup, hk, ih]

theorem metaLookup_map_override (base upd : MetaDict) (k : String) :
    metaLookup (base.map (fun p => (p.1, (metaLookup upd p.1).getD p.2))) k =
      (metaLookup base k).map (fun v => (metaLookup upd k).getD v) := by
  induction base with
  | nil => rfl
  | cons p rest ih =>
    obtain ⟨k2, v2⟩ := p
    by_cases hk : k2 = k
    · subst hk
      simp [metaLookup]
    · simp [metaLookup, hk, ih]

theorem metaLookup_filter_new (base upd : MetaDict) (k : String) :
    metaLookup (upd.filter (fun p => (metaLookup base p.1).isNone)) k =
      match metaLookup base k with
      | some _ => none
      | none => metaLookup upd k := by
  induction upd with
  | nil => cases metaLookup base k <;> rfl
  | cons p rest ih =>
    obtain ⟨k2, v2⟩ := p
    by_cases hk : k2 = k
    · subst hk
      cases hb : metaLookup base k2 with
      | some v => simp [List.filter_cons, hb, metaLookup, ih, hb]
      | none => simp [List.filter_cons, hb, metaLookup]
    · cases hb : metaLookup base k2 with
      | some v => simp [List.filter_cons, hb, metaLookup, hk, ih]
      | none => simp [List.filter_cons, hb, metaLookup, hk, ih]

theorem dictUpdate_lookup (base upd : MetaDict) (k : String) :
    metaLookup (dictUpdate base upd) k =
      match metaLookup upd k with
      | some v => some v
      | none => metaLookup base k := by
  rw [dictUpdate, metaLookup_append, metaLookup_map_override, metaLookup_filter_new]
  cases hu : metaLookup upd k with
  | some v =>
    cases hb : metaLookup base k with
    | some w => simp [hu, hb]
    | none => simp [hu, hb]
  | none =>
    cases hb : metaLookup base k with
    | some w => simp [hu, hb]
    | none => simp [hu, hb]

theorem distLookup_bumpDist (acc : List (String × Nat)) (key s : String) :
    distLookup (bumpDist acc key) s =
      distLookup acc s + (if key = s then 1 else 0) := by
  induction acc with
  | nil =>
    by_cases hks : key = s
    · simp [bumpDist, distLookup, hks]
    · simp [bumpDist, distLookup, hks]
  | cons p rest ih =>
    obtain ⟨k2, c⟩ := p
    by_cases hk2 : k2 = key
    · subst hk2
      by_cases hks : k2 = s
      · simp [bumpDist, distLookup, hks]
      · simp [bumpDist, distLookup, hks]
    · by_cases hks : k2 = s
      · subst hks
        have : ¬ key = k2 := fun he => hk2 he.symm
        simp [bumpDist, hk2, distLookup, this]
      · simp [bumpDist, hk2, distLookup, hks, ih]

theorem distLookup_foldl (qs : List RawQuestion) : ∀ (acc : List (String × Nat)) (s : String),
    distLookup (qs.foldl (fun a q => bumpDist a (q.difficulty.getD "unknown")) acc) s =
      distLookup acc s + countDiff qs s := by
  induction qs with
  | nil =>
    intro acc s
    simp [countDiff]
  | cons q rest ih =>
    intro acc s
    rw [List.foldl_cons, ih]
    rw [distLookup_bumpDist]
    have : countDiff (q :: rest) s =
        (if q.difficulty.getD "unknown" = s then 1 else 0) + countDiff rest s := by
      rw [countDiff, countDiff, List.filter_cons]
      by_cases hq : q.difficulty.getD "unknown" = s
      · simp [hq]
        omega
      · simp [hq]
    rw [this]
    omega

theorem difficultyDist_lookup (qs : List RawQuestion) (s : String) :
    distLookup (difficultyDist qs) s = countDiff qs s := by
  rw [difficultyDist, distLookup_foldl]
  simp [distLookup]

/-- C6: on a repaired payload (questions a list, roadmap and videos absent
or lists), metadata synthesis succeeds; every key of a supplied metadata
object overrides the freshly computed value; and when not overridden,
`total_questions` is the surviving-question count and
`difficulty_distribution` maps every difficulty string seen among surviving
questions (any string value, unrecognized ones included) to its count. -/
theorem C6_metadata_synthesis (now : String) (d : MCQData) (qs : List RawQuestion)
    (hq : d.questions = RawField.val qs)
    (hr : d.roadmap = RawField.absent ∨ ∃ l, d.roadmap = RawField.val l)
    (hv : d.reference_videos = RawField.absent ∨ ∃ l, d.reference_videos = RawField.val l) :
    ∃ m, generate_metadata now d = .ok m ∧
      (∀ k, (metaLookup (d.metadata.getD []) k).isSome →
        metaLookup m k = metaLookup (d.metadata.getD []) k) ∧
      (metaLookup (d.metadata.getD []) "total_questions" = none →
        metaLookup m "total_questions" = some (JVal.num qs.length)) ∧
      (metaLookup (d.metadata.getD []) "difficulty_distribution" = none →
        ∃ dl, metaLookup m "difficulty_distribution" = some (JVal.dist dl) ∧
          ∀ s, distLookup dl s = countDiff qs s) := by
  have hrl : ∃ n, d.roadmap.pyLen = Except.ok n := by
    rcases hr with hr | ⟨l, hr⟩
    · exact ⟨0, by rw [hr]; rfl⟩
    · exact ⟨l.length, by rw [hr]; rfl⟩
  have hvl : ∃ n, d.reference_videos.pyLen = Except.ok n := by
    rcases hv with hv | ⟨l, hv⟩
    · exact ⟨0, by rw [hv]; rfl⟩
    · exact ⟨l.length, by rw [hv]; rfl⟩
  obtain ⟨rn, hrl⟩ := hrl
  obtain ⟨vn, hvl⟩ := hvl
  have hform : generate_metadata now d = Except.ok (dictUpdate
      [("total_questions", JVal.num qs.length),
       ("difficulty_distribution", JVal.dist (difficultyDist qs)),
       ("has_roadmap", JVal.boolean d.roadmap.truthy),
       ("has_reference_videos", JVal.boolean d.reference_videos.truthy),
       ("roadmap_steps", JVal.num rn),
       ("reference_video_count", JVal.num vn),
       ("validation_timestamp", JVal.str now)] (d.metadata.getD [])) := by
    rw [generate_metadata, hrl, hvl]
    simp [hq, RawField.listD, Bind.bind, Except.bind, pure, Except.pure]
  refine ⟨_, hform, ?_, ?_, ?_⟩
  · intro k hk
    rw [dictUpdate_lookup]
    cases hex : metaLookup (d.metadata.getD []) k with
    | some v => simp
    | none => rw [hex] at hk; cases hk
  · intro hnone
    rw [dictUpdate_lookup, hnone]
    simp [metaLookup]
  · intro hnone
    rw [dictUpdate_lookup, hnone]
    refine ⟨difficultyDist qs, ?_, difficultyDist_lookup qs⟩
    simp [metaLookup]

/-- Witness for C6 at a concrete repaired payload carrying an
upstream-supplied metadata key. -/
theorem C6_metadata_synthesis_witness :
    ∃ m, generate_metadata "N" dValidMaterialized = .ok m ∧
      (∀ k, (metaLookup (dValidMaterialized.metadata.getD []) k).isSome →
        metaLookup m k = metaLookup (dValidMaterialized.metadata.getD []) k) ∧
      (metaLookup (dValidMaterialized.metadata.getD []) "total_questions" = none →
        metaLookup m "total_questions" = some (JVal.num [qValidWithTopicArea].length)) ∧
      (metaLookup (dValidMaterialized.metadata.getD []) "difficulty_distribution" = none →
        ∃ dl, metaLookup m "difficulty_distribution" = some (JVal.dist dl) ∧
          ∀ s, distLookup dl s = countDiff [qValidWithTopicArea] s) :=
  C6_metadata_synthesis "N" dValidMaterialized [qValidWithTopicArea] rfl
    (Or.inr ⟨_, rfl⟩) (Or.inr ⟨_, rfl⟩)

theorem validate_request_ok (r : RawRequest) (u t : String)
    (hu : r.username = some u) (hne : ¬ u = "")
    (ht : r.topic = some t) (htne : ¬ t = "")
    (halnum : pyIsAlnum (stripSeparators u) = true) :
    validate_request_data r = Except.ok
      { r with difficulty := some (r.difficulty.getD "mixed"),
               question_count := some (normQC (r.question_count.getD (QCVal.int 20))),
               include_roadmap := some (r.include_roadmap.getD true),
               include_videos := some (r.include_videos.getD true) } := by
  cases hqc : r.question_count with
  | none =>
    simp [validate_request_data, hu, hne, ht, htne, halnum, hqc, normQC]
  | some q =>
    cases q with
    | int n =>
      by_cases hrange : n < 5 ∨ n > 50
      · simp [validate_request_data, hu, hne, ht, htne, halnum, hqc, normQC, hrange]
      · simp [validate_request_data, hu, hne, ht, htne, halnum, hqc, normQC, hrange]
    | nonInt =>
      simp [validate_request_data, hu, hne, ht, htne, halnum, hqc, normQC]

/-- C7: for any request whose username and topic pass the upfront checks,
normalization succeeds whatever `question_count` holds, and whenever
`question_count` is present but not an integer or an integer outside
[5, 50], the normalized request carries `question_count = 20`. -/
theorem C7_question_count_clamped (r : RawRequest) (u t : String)
    (hu : r.username = some u) (hne : ¬ u = "")
    (ht : r.topic = some t) (htne : ¬ t = "")
    (halnum : pyIsAlnum (stripSeparators u) = true) :
    ∃ out, validate_request_data r = Except.ok out ∧
      ((match r.question_count with
        | some (QCVal.int n) => n < 5 ∨ n > 50
        | some QCVal.nonInt => True
        | none => False) → out.question_count = some (QCVal.int 20)) := by
  refine ⟨_, validate_request_ok r u t hu hne ht htne halnum, ?_⟩
  intro hbad
  cases hqc : r.question_count with
  | none => rw [hqc] at hbad; cases hbad
  | some q =>
    cases q with
    | int n =>
      rw [hqc] at hbad
      have hbad2 : n < 5 ∨ n > 50 := hbad
      simp [hqc, normQC, hbad2]
    | nonInt => simp [hqc, normQC]

/-- Witness for C7: `question_count = 1000` normalizes to 20 without
failing. -/
theorem C7_question_count_clamped_witness :
    ∃ out, validate_request_data rBigCount = Except.ok out ∧
      ((match rBigCount.question_count with
        | some (QCVal.int n) => n < 5 ∨ n > 50
        | some QCVal.nonInt => True
        | none => False) → out.question_count = some (QCVal.int 20)) :=
  C7_question_count_clamped rBigCount "ab" "math" rfl (by decide) rfl (by decide) (by decide)

/-- C8 fails on the code: the request with `username = "_"` and a nonempty
topic fails, although the username is nonempty, the topic is present and
nonempty, and every username character is in the allowed set (letters,
digits, hyphen, underscore) — `"_".replace(...)` strips to `""`, and
`"".isalnum()` is false. -/
theorem C8_counterexample :
    isErr (validate_request_data rUnderscoreOnly) = true ∧
    rUnderscoreOnly.username = some "_" ∧
    usernameAllowedChars "_" = true ∧
    rUnderscoreOnly.topic = some "math" := by
  exact ⟨by decide, by decide, by decide, by decide⟩

/-- C8 (amended): request normalization fails exactly when `username` or
`topic` is missing or empty, or when the username with all hyphens and
underscores removed is not a nonempty alphanumeric string (so a username
made only of allowed separator characters also fails); every passing
request is returned with `difficulty` defaulted to "mixed",
`include_roadmap`/`include_videos` defaulted to true, and `question_count`
defaulted to 20 and clamped into [5, 50]. -/
theorem C8_request_normalization (r : RawRequest) :
    (isErr (validate_request_data r) = true ↔
      r.username = none ∨ r.username = some "" ∨ r.topic = none ∨ r.topic = some "" ∨
      (∃ u, r.username = some u ∧ pyIsAlnum (stripSeparators u) = false)) ∧
    (∀ out, validate_request_data r = Except.ok out →
      out.username = r.username ∧ out.topic = r.topic ∧
      out.difficulty = some (r.difficulty.getD "mixed") ∧
      out.include_roadmap = some (r.include_roadmap.getD true) ∧
      out.include_videos = some (r.include_videos.getD true) ∧
      out.question_count = some (normQC (r.question_count.getD (QCVal.int 20)))) := by
  cases hu : r.username with
  | none =>
    constructor
    · simp [validate_request_data, hu, isErr]
    · intro out hout
      rw [validate_request_data, hu] at hout
      cases hout
  | some u =>
    by_cases hue : u = ""
    · subst hue
      constructor
      · simp [validate_request_data, hu, isErr]
      · intro out hout
        rw [validate_request_data, hu] at hout
        simp at hout
    · cases ht : r.topic with
      | none =>
        constructor
        · simp [validate_request_data, hu, hue, ht, isErr]
        · intro out hout
          rw [validate_request_data, hu] at hout
          simp only [hue, if_neg, ite_false] at hout
          rw [ht] at hout
          cases hout
      | some t =>
        by_cases hte : t = ""
        · subst hte
          constructor
          · simp [validate_request_data, hu, hue, ht, isErr]
          · intro out hout
            rw [validate_request_data, hu] at hout
            simp [hue, ht] at hout
        · by_cases halnum : pyIsAlnum (stripSeparators u) = true
          · have hok := validate_request_ok r u t hu hue ht hte halnum
            constructor
            · rw [hok]
              simp [isErr, hu, hue, ht, hte, halnum]
            · intro out hout
              rw [hok] at hout
              injection hout with hout
              subst hout
              simp [hu, ht]
          · have hfalse : pyIsAlnum (stripSeparators u) = false := by
              revert halnum
              cases pyIsAlnum (stripSeparators u) <;> simp
            constructor
            · simp [validate_request_data, hu, hue, ht, hte, hfalse, isErr]
            · intro out hout
              rw [validate_request_data, hu] at hout
              simp [hue, ht, hte, hfalse] at hout
  
/-- Witness for C8 (amended), instantiated at the all-separators request. -/
theorem C8_request_normalization_witness :
    (isErr (validate_request_data rUnderscoreOnly) = true ↔
      rUnderscoreOnly.username = none ∨ rUnderscoreOnly.username = some "" ∨
      rUnderscoreOnly.topic = none ∨ rUnderscoreOnly.topic = some "" ∨
      (∃ u, rUnderscoreOnly.username = some u ∧
        pyIsAlnum (stripSeparators u) = false)) ∧
    (∀ out, validate_request_data rUnderscoreOnly = Except.ok out →
      out.username = rUnderscoreOnly.username ∧ out.topic = rUnderscoreOnly.topic ∧
      out.difficulty = some (rUnderscoreOnly.difficulty.getD "mixed") ∧
      out.include_roadmap = some (rUnderscoreOnly.include_roadmap.getD true) ∧
      out.include_videos = some (rUnderscoreOnly.include_videos.getD true) ∧
      out.question_count =
        some (normQC (rUnderscoreOnly.question_count.getD (QCVal.int 20)))) :=
  C8_request_normalization rUnderscoreOnly

/-- C5 fails on the code: `dValidNoTopicArea` is schema-valid (its only
optional omission is `topic_area`, which the schema model allows), yet
repair does not return it unchanged modulo metadata — the question gains
`topic_area = "General"`. -/
theorem C5_counterexample :
    pydanticValid dValidNoTopicArea = true ∧
    ¬ ∃ m, validate_mcq_json "T" dValidNoTopicArea =
        Except.ok { dValidNoTopicArea with metadata := m } := by
  constructor
  · decide
  · have key : (match validate_mcq_json "T" dValidNoTopicArea with
      | Except.ok x => decide (x.questions = dValidNoTopicArea.questions)
      | Except.error _ => true) = false := by decide
    rintro ⟨m, h⟩
    rw [h] at key
    simp at key

theorem repairQuestion_id (i : Nat) (q : RawQuestion)
    (hq : pydanticValidQuestion q = true) (hta : q.topic_area.isSome = true) :
    repairQuestion i q = some q := by
  simp only [pydanticValidQuestion, Bool.and_eq_true] at hq
  obtain ⟨⟨⟨⟨hid, htext⟩, hexp⟩, hopts⟩, hdiff⟩ := hq
  have hidne : ¬ q.question_id = none := by
    cases hqid : q.question_id with
    | none => rw [hqid] at hid; cases hid
    | some n => intro hfalse; cases hfalse
  have htextne : ¬ q.question_text = none := by
    cases hqt : q.question_text with
    | none => rw [hqt] at htext; cases htext
    | some s => intro hfalse; cases hfalse
  have hexpne : ¬ q.explanation = none := by
    cases hqe : q.explanation with
    | none => rw [hqe] at hexp; cases hexp
    | some s => intro hfalse; cases hfalse
  have hdiffne : ¬ q.difficulty = none := by
    cases hqd : q.difficulty with
    | none => rw [hqd] at hdiff; cases hdiff
    | some s => intro hfalse; cases hfalse
  obtain ⟨opts, hqo⟩ : ∃ opts, q.options = RawField.val opts := by
    cases hqo : q.options with
    | val l => exact ⟨l, rfl⟩
    | absent => rw [hqo] at hopts; cases hopts
    | invalidTruthy => rw [hqo] at hopts; cases hopts
    | invalidFalsy => rw [hqo] at hopts; cases hopts
  rw [hqo] at hopts
  simp only [Bool.and_eq_true, decide_eq_true_eq] at hopts
  obtain ⟨⟨hall, hlen4⟩, hcount⟩ := hopts
  have hoptsne : ¬ q.options = RawField.absent := by rw [hqo]; intro hfalse; cases hfalse
  have htane : ¬ q.topic_area = none := by
    cases hqta : q.topic_area with
    | none => rw [hqta] at hta; cases hta
    | some s => intro hfalse; cases hfalse
  rw [repairQuestion, if_neg hidne, if_neg (by simp [htextne, hexpne, hoptsne, hdiffne])]
  have hvqo : validate_question_options q.options = Except.ok opts := by
    rw [hqo]
    show normalizeCorrect (fixOptionCount opts) = Except.ok opts
    rw [fixOptionCount, if_pos hlen4]
    exact normalizeCorrect_count_one opts hcount
  rw [hvqo]
  have hqeq : { q with options := RawField.val opts } = q := by rw [← hqo]
  simp only [hqeq]
  rw [if_neg htane]

theorem repairQuestionsLoop_id (qs : List RawQuestion)
    (h : ∀ q ∈ qs, ∀ i : Nat, repairQuestion i q = some q) :
    ∀ i : Nat, repairQuestionsLoop i qs = qs := by
  induction qs with
  | nil => intro i; rfl
  | cons q rest ih =>
    intro i
    rw [repairQuestionsLoop, h q (by simp) i]
    rw [ih (fun q2 hq2 i2 => h q2 (by simp [hq2]) i2) (i + 1)]

theorem repairStep_id (i : Nat) (s : RawStep)
    (hs : pydanticValidStep s = true) (hm : materializedStep s = true) :
    repairStep i s = s := by
  simp only [pydanticValidStep, Bool.and_eq_true] at hs
  obtain ⟨⟨⟨⟨hid, _⟩, _⟩, _⟩, _⟩ := hs
  have hidne : ¬ s.step_number = none := by
    cases hsn : s.step_number with
    | none => rw [hsn] at hid; cases hid
    | some n => intro hfalse; cases hfalse
  obtain ⟨l, hpre⟩ : ∃ l, s.prerequisites = RawField.val l := by
    rw [materializedStep] at hm
    cases hsp : s.prerequisites with
    | val l => exact ⟨l, rfl⟩
    | absent => rw [hsp] at hm; cases hm
    | invalidTruthy => rw [hsp] at hm; cases hm
    | invalidFalsy => rw [hsp] at hm; cases hm
  rw [repairStep, if_neg hidne, hpre]

theorem repairRoadmapLoop_id (l : List RawStep)
    (h : ∀ s ∈ l, ∀ i : Nat, repairStep i s = s) :
    ∀ i : Nat, repairRoadmapLoop i l = l := by
  induction l with
  | nil => intro i; rfl
  | cons s rest ih =>
    intro i
    rw [repairRoadmapLoop, h s (by simp) i]
    rw [ih (fun s2 hs2 i2 => h s2 (by simp [hs2]) i2) (i + 1)]

theorem repairVideo_id (v : RawVideo)
    (hv : pydanticValidVideo v = true) (hm : materializedVideo v = true) :
    repairVideo v = some v := by
  simp only [pydanticValidVideo, Bool.and_eq_true] at hv
  obtain ⟨⟨⟨_, hurl⟩, _⟩, _⟩ := hv
  simp only [materializedVideo, Bool.and_eq_true] at hm
  obtain ⟨hdur, hdesc⟩ := hm
  obtain ⟨u, hu⟩ : ∃ u, v.url = some u := by
    cases hvu : v.url with
    | none => rw [hvu] at hurl; cases hurl
    | some u => exact ⟨u, rfl⟩
  have hurl2 : (pyStartsWith u "http://" || pyStartsWith u "https://") = true := by
    rw [hu] at hurl
    exact hurl
  have hdurne : ¬ v.duration = none := by
    cases hvd : v.duration with
    | none => rw [hvd] at hdur; cases hdur
    | some s => intro hfalse; cases hfalse
  have hdescne : ¬ v.description = none := by
    cases hvd : v.description with
    | none => rw [hvd] at hdesc; cases hdesc
    | some s => intro hfalse; cases hfalse
  rw [repairVideo, hu]
  simp [hurl2, hdurne, hdescne]

theorem filterMap_repairVideo_id (l : List RawVideo)
    (h : ∀ v ∈ l, repairVideo v = some v) : l.filterMap repairVideo = l := by
  induction l with
  | nil => rfl
  | cons v rest ih =>
    rw [List.filterMap_cons, h v (by simp)]
    rw [ih (fun v2 hv2 => h v2 (by simp [hv2]))]

/-- C5 (amended): repairing a schema-valid response returns it unchanged
except for the recomputed metadata, provided it has at least one question
and already carries the optional fields repair would materialize
(`topic_area` on questions, `prerequisites` on roadmap steps, `duration`
and `description` on videos); without those provisos repair adds the
defaults, so the response is not returned unchanged (see the
counterexample). -/
theorem C5_repair_idempotent (now : String) (d : MCQData)
    (h : validMaterialized d = true) :
    ∃ m, validate_mcq_json now d = Except.ok { d with metadata := some m } := by
  simp only [validMaterialized, Bool.and_eq_true] at h
  obtain ⟨⟨⟨hpv, hqpart⟩, hrpart⟩, hvpart⟩ := h
  simp only [pydanticValid, Bool.and_eq_true] at hpv
  obtain ⟨⟨⟨⟨⟨husr, htop⟩, hts⟩, hqm⟩, hrm⟩, hvm⟩ := hpv
  obtain ⟨u, hu⟩ := Option.isSome_iff_exists.mp husr
  obtain ⟨t, ht⟩ := Option.isSome_iff_exists.mp htop
  obtain ⟨ts, hts2⟩ := Option.isSome_iff_exists.mp hts
  obtain ⟨qs, hq⟩ : ∃ qs, d.questions = RawField.val qs := by
    cases hdq : d.questions with
    | val l => exact ⟨l, rfl⟩
    | absent => rw [hdq] at hqm; cases hqm
    | invalidTruthy => rw [hdq] at hqm; cases hqm
    | invalidFalsy => rw [hdq] at hqm; cases hqm
  rw [hq] at hqm hqpart
  simp only [Bool.and_eq_true] at hqpart
  obtain ⟨hqsne, hqmat⟩ := hqpart
  have hqsne2 : ¬ qs = [] := by
    intro he
    rw [he] at hqsne
    cases hqsne
  have hbasic : validate_basic_structure now d = Except.ok d := by
    simp [validate_basic_structure, hu, ht, hts2, hq]
  have hloop : repairQuestionsLoop 0 qs = qs := by
    apply repairQuestionsLoop_id
    intro q hqmem i
    exact repairQuestion_id i q
      (List.all_eq_true.mp hqm q hqmem)
      (by have := List.all_eq_true.mp hqmat q hqmem
          simpa [materializedQuestion] using this)
  have hvq : validate_questions qs = Except.ok qs := by
    rw [validate_questions]
    simp only [hloop]
    rw [if_neg hqsne2]
  have hd2 : ({ d with questions := RawField.val qs } : MCQData) = d := by rw [← hq]
  have hror : d.roadmap = RawField.absent ∨ ∃ l, d.roadmap = RawField.val l := by
    cases hdr : d.roadmap with
    | absent => exact Or.inl rfl
    | val l => exact Or.inr ⟨l, rfl⟩
    | invalidTruthy => rw [hdr] at hrm; cases hrm
    | invalidFalsy => rw [hdr] at hrm; cases hrm
  have hvor : d.reference_videos = RawField.absent ∨
      ∃ l, d.reference_videos = RawField.val l := by
    cases hdv : d.reference_videos with
    | absent => exact Or.inl rfl
    | val l => exact Or.inr ⟨l, rfl⟩
    | invalidTruthy => rw [hdv] at hvm; cases hvm
    | invalidFalsy => rw [hdv] at hvm; cases hvm
  have hd3 : applyRoadmapRepair d = d := by
    rw [applyRoadmapRepair]
    rcases hror with hdr | ⟨l, hdr⟩
    · rw [hdr]
      simp [RawField.truthy]
    · rw [hdr] at hrm hrpart
      have hsteps : validate_roadmap (RawField.val l) = l := by
        apply repairRoadmapLoop_id
        intro s hsmem i
        exact repairStep_id i s (List.all_eq_true.mp hrm s hsmem)
          (List.all_eq_true.mp hrpart s hsmem)
      by_cases hle : l.isEmpty
      · rw [hdr]
        simp [RawField.truthy, hle]
      · rw [hdr]
        simp only [RawField.truthy, hle, Bool.not_false, if_true]
        rw [hsteps, ← hdr]
  have hd4 : applyVideoRepair d = d := by
    rw [applyVideoRepair]
    rcases hvor with hdv | ⟨l, hdv⟩
    · rw [hdv]
      simp [RawField.truthy]
    · rw [hdv] at hvm hvpart
      have hvids : validate_reference_videos (RawField.val l) = l := by
        apply filterMap_repairVideo_id
        intro v hvmem
        exact repairVideo_id v (List.all_eq_true.mp hvm v hvmem)
          (List.all_eq_true.mp hvpart v hvmem)
      by_cases hle : l.isEmpty
      · rw [hdv]
        simp [RawField.truthy, hle]
      · rw [hdv]
        simp only [RawField.truthy, hle, Bool.not_false, if_true]
        rw [hvids, ← hdv]
  obtain ⟨m, hm, _⟩ := C6_metadata_synthesis now d qs hq hror hvor
  refine ⟨m, ?_⟩
  rw [validate_mcq_json]
  simp only [hbasic, Bind.bind, Except.bind, hq, RawField.listD, hvq, hd2, hd3, hd4,
    finalizeMetadata, hm, pure, Except.pure]

/-- Witness for C5 (amended) at a concrete fully materialized valid
response. -/
theorem C5_repair_idempotent_witness :
    validMaterialized dValidMaterialized = true ∧
    ∃ m, validate_mcq_json "N" dValidMaterialized =
      Except.ok { dValidMaterialized with metadata := some m } :=
  ⟨by decide, C5_repair_idempotent "N" dValidMaterialized (by decide)⟩

theorem pyLen_err {α : Type} (f : RawField α) :
    isErr f.pyLen = true ↔ f = RawField.invalidTruthy ∨ f = RawField.invalidFalsy := by
  cases f <;> simp [RawField.pyLen, isErr]

theorem generate_metadata_err (now : String) (d : MCQData) :
    isErr (generate_metadata now d) = true ↔
      isErr d.roadmap.pyLen = true ∨ isErr d.reference_videos.pyLen = true := by
  cases hr : d.roadmap.pyLen with
  | error e => simp [generate_metadata, hr, Bind.bind, Except.bind, isErr]
  | ok n =>
    cases hv : d.reference_videos.pyLen with
    | error e => simp [generate_metadata, hr, hv, Bind.bind, Except.bind, isErr]
    | ok n2 =>
      simp [generate_metadata, hr, hv, Bind.bind, Except.bind, isErr, pure, Except.pure]

theorem finalizeMetadata_err (now : String) (d : MCQData) :
    isErr (finalizeMetadata now d) = isErr (generate_metadata now d) := by
  cases h : generate_metadata now d with
  | error e => simp [finalizeMetadata, h, Bind.bind, Except.bind, isErr]
  | ok m => simp [finalizeMetadata, h, Bind.bind, Except.bind, isErr, pure, Except.pure]

theorem applyRoadmapRepair_videos (d : MCQData) :
    (applyRoadmapRepair d).reference_videos = d.reference_videos := by
  rw [applyRoadmapRepair]
  by_cases hc : d.roadmap.truthy
  · rw [if_pos hc]
  · rw [if_neg hc]

theorem applyVideoRepair_roadmap (d : MCQData) :
    (applyVideoRepair d).roadmap = d.roadmap := by
  rw [applyVideoRepair]
  by_cases hc : d.reference_videos.truthy
  · rw [if_pos hc]
  · rw [if_neg hc]

theorem applyRoadmapRepair_roadmap_invalid (d : MCQData) :
    ((applyRoadmapRepair d).roadmap = RawField.invalidTruthy ∨
      (applyRoadmapRepair d).roadmap = RawField.invalidFalsy) ↔
    d.roadmap = RawField.invalidFalsy := by
  rw [applyRoadmapRepair]
  cases hr : d.roadmap with
  | absent => simp [RawField.truthy, hr]
  | invalidTruthy => simp [RawField.truthy, hr]
  | invalidFalsy => simp [RawField.truthy, hr]
  | val l =>
    by_cases hle : l.isEmpty
    · simp [RawField.truthy, hle, hr]
    · simp [RawField.truthy, hle, hr]

theorem applyVideoRepair_videos_invalid (d : MCQData) :
    ((applyVideoRepair d).reference_videos = RawField.invalidTruthy ∨
      (applyVideoRepair d).reference_videos = RawField.invalidFalsy) ↔
    d.reference_videos = RawField.invalidFalsy := by
  rw [applyVideoRepair]
  cases hv : d.reference_videos with
  | absent => simp [RawField.truthy, hv]
  | invalidTruthy => simp [RawField.truthy, hv]
  | invalidFalsy => simp [RawField.truthy, hv]
  | val l =>
    by_cases hle : l.isEmpty
    · simp [RawField.truthy, hle, hv]
    · simp [RawField.truthy, hle, hv]

theorem finalize_tail_err (now : String) (d2 : MCQData) :
    isErr (finalizeMetadata now (applyVideoRepair (applyRoadmapRepair d2))) = true ↔
      d2.roadmap = RawField.invalidFalsy ∨ d2.reference_videos = RawField.invalidFalsy := by
  rw [finalizeMetadata_err, generate_metadata_err, pyLen_err, pyLen_err]
  rw [applyVideoRepair_roadmap]
  constructor
  · intro h
    rcases h with h | h
    · exact Or.inl ((applyRoadmapRepair_roadmap_invalid d2).mp h)
    · have h2 := (applyVideoRepair_videos_invalid (applyRoadmapRepair d2)).mp h
      rw [applyRoadmapRepair_videos] at h2
      exact Or.inr h2
  · intro h
    rcases h with h | h
    · exact Or.inl ((applyRoadmapRepair_roadmap_invalid d2).mpr h)
    · right
      apply (applyVideoRepair_videos_invalid (applyRoadmapRepair d2)).mpr
      rw [applyRoadmapRepair_videos]
      exact h

theorem validate_mcq_json_err_iff (now : String) (d : MCQData) :
    isErr (validate_mcq_json now d) = true ↔
      d.username = none ∨ d.topic = none ∨
      d.questions = RawField.absent ∨ d.questions = RawField.invalidTruthy ∨
      d.questions = RawField.invalidFalsy ∨
      (∃ qs, d.questions = RawField.val qs ∧ repairQuestionsLoop 0 qs = []) ∨
      d.roadmap = RawField.invalidFalsy ∨ d.reference_videos = RawField.invalidFalsy := by
  obtain ⟨du, dt, dts, dqf, drf, dvf, dmd⟩ := d
  cases du with
  | none =>
    simp [validate_mcq_json, validate_basic_structure, Bind.bind, Except.bind, isErr]
  | some u =>
    cases dt with
    | none =>
      simp [validate_mcq_json, validate_basic_structure, Bind.bind, Except.bind, isErr]
    | some t =>
      cases dqf with
      | absent =>
        cases dts <;>
          simp [validate_mcq_json, validate_basic_structure, Bind.bind, Except.bind, isErr]
      | invalidTruthy =>
        cases dts <;>
          simp [validate_mcq_json, validate_basic_structure, Bind.bind, Except.bind, isErr]
      | invalidFalsy =>
        cases dts <;>
          simp [validate_mcq_json, validate_basic_structure, Bind.bind, Except.bind, isErr]
      | val qs =>
        by_cases hloop : repairQuestionsLoop 0 qs = []
        · cases dts <;>
            simp [validate_mcq_json, validate_basic_structure, validate_questions,
              RawField.listD, hloop, Bind.bind, Except.bind, isErr]
        · cases dts <;>
            simp [validate_mcq_json, validate_basic_structure, validate_questions,
              RawField.listD, hloop, Bind.bind, Except.bind, finalize_tail_err]

/-- C10 fails as stated: on a payload with username and topic present, a
proper question list with one surviving question, but `roadmap: null`
(present, falsy, not a sequence), the repair operation raises its typed
failure — the `len()` call in metadata generation raises `TypeError` —
although none of the claim's enumerated causes (parse error, wrong input
type, missing username/topic, non-sequence questions, zero surviving
questions) applies. -/
theorem C10_counterexample :
    isErr (validate_mcq_json "T" dRoadmapNull) = true ∧
    dRoadmapNull.username = some "a" ∧
    dRoadmapNull.topic = some "b" ∧
    dRoadmapNull.questions = RawField.val [qTwoCorrect] ∧
    repairQuestionsLoop 0 [qTwoCorrect] ≠ [] := by
  exact ⟨by decide, by decide, by decide, by decide, by decide⟩

/-- C10 (amended): on dict inputs, the repair operation raises its typed
failure exactly for a missing top-level username or topic, a missing or
non-sequence questions value, zero surviving questions, or a present falsy
non-sequence `roadmap`/`reference_videos` value (which crashes the `len()`
computations in metadata synthesis); it never fails because the repaired
data violates the schema model's field constraints — witness the
end-to-end payload whose question text is shorter than 10 characters, which
repairs successfully to a value the schema model rejects. -/
theorem C10_failure_modes :
    (∀ (now : String) (d : MCQData),
      isErr (validate_mcq_json now d) = true ↔
        d.username = none ∨ d.topic = none ∨
        d.questions = RawField.absent ∨ d.questions = RawField.invalidTruthy ∨
        d.questions = RawField.invalidFalsy ∨
        (∃ qs, d.questions = RawField.val qs ∧ repairQuestionsLoop 0 qs = []) ∨
        d.roadmap = RawField.invalidFalsy ∨
        d.reference_videos = RawField.invalidFalsy) ∧
    isErr (validate_mcq_json "T" dShortQuestionText) = false ∧
    (match validate_mcq_json "T" dShortQuestionText with
      | Except.ok r => !pydanticValid r
      | Except.error _ => false) = true := by
  exact ⟨validate_mcq_json_err_iff, by decide, by decide⟩

/-- Witness for C10 (amended) at the roadmap-null payload: the
characterization applied there yields the failure. -/
theorem C10_failure_modes_witness :
    isErr (validate_mcq_json "T" dRoadmapNull) = true :=
  (C10_failure_modes.1 "T" dRoadmapNull).mpr
    (Or.inr (Or.inr (Or.inr (Or.inr (Or.inr (Or.inr (Or.inl rfl)))))))
